import Mathlib

/-!
Verification development for the hammer technology-description resolution layer
(`hammer/tech/__init__.py`): the library data model, the path-prefix resolution
algorithm (`prepend_dir_path`), the archive/install materializer
(`check_installs`, `extract_tarballs`), the supply pre-filter
(`filter_for_supplies`), the deck accessors and the library-filter execution
engine (`process_library_filter`).

Paths are embedded as strings over the POSIX separator. Fallible Python code
(raising `ValueError` / `AssertionError` / pydantic validation errors) is
embedded as `Except String`. The mutable pieces of `HammerTechnology` state
(settings database, cache directory, package resources, filesystem) are
gathered into an explicit environment record `TechEnv`.
-/

/-! ## Path utilities (os.path over the POSIX separator) -/

/-- The `os.path.isabs` on POSIX: a path is absolute iff it starts with `/`. -/
def strIsAbs (p : String) : Bool :=
  match p.toList with
  | '/' :: _ => true
  | _ => false

/-- Whether a path ends with the separator (used by `os.path.join`). -/
def endsWithSlash (p : String) : Bool :=
  match p.toList.getLastD ' ' with
  | '/' => true
  | _ => false

/-- The `os.path.join(a, b)` for POSIX paths: an absolute `b` replaces `a`;
otherwise `b` is appended with a separator inserted unless `a` is empty or
already ends with one. -/
def pathJoin (a b : String) : String :=
  if strIsAbs b then b
  else if a = "" || endsWithSlash a then a ++ b
  else a ++ "/" ++ b

/-- Split a character list on `'/'`, keeping empty segments, exactly like
Python's `str.split("/")` (so `"" ↦ [[]]`, `"a/" ↦ [[a], []]`). -/
def splitCharsOnSlash : List Char → List (List Char)
  | [] => [[]]
  | c :: cs =>
    let rest := splitCharsOnSlash cs
    if c = '/' then [] :: rest
    else
      match rest with
      | [] => [[c]]
      | r :: rs => (c :: r) :: rs

/-- The `path.split(os.path.sep)`: split a path string on the separator. -/
def splitPath (p : String) : List String :=
  (splitCharsOnSlash p.toList).map (fun cs => String.mk cs)

/-- The `os.path.join(*parts)` over a non-empty list of segments. -/
def joinParts : List String → String
  | [] => ""
  | x :: xs => xs.foldl pathJoin x

/-- Whether an `Except` is the error (raising) case. -/
def isErr {α : Type} (e : Except String α) : Bool :=
  match e with
  | Except.error _ => true
  | Except.ok _ => false

/-- A Python `for` loop over a list whose body may raise: stops at the first
error, otherwise collects the results in order. -/
def mapME {α β : Type} (f : α → Except String β) : List α → Except String (List β)
  | [] => Except.ok []
  | x :: xs =>
    match f x with
    | Except.error e => Except.error e
    | Except.ok y =>
      match mapME f xs with
      | Except.error e => Except.error e
      | Except.ok ys => Except.ok (y :: ys)

/-! ## Data model (pydantic models of `hammer/tech/__init__.py`) -/

/-- The `PathPrefix`: an identifier/path pair. (Named `PathPfx` here; the Python
class is `PathPrefix`.) -/
structure PathPfx where
  id : String
  path : String
deriving DecidableEq

/-- The `PathPrefix.prepend`: `os.path.join(self.path, rest_of_path)`. -/
def PathPfx.prepend (pp : PathPfx) (rest_of_path : String) : String :=
  pathJoin pp.path rest_of_path

/-- The `Provide`: `lib_type` (required) and an optional `vt`. -/
structure Provide where
  lib_type : String
  vt : Option String := Option.none
deriving DecidableEq

/-- The `Supplies`: ground and supply voltage annotations of a library. -/
structure Supplies where
  GND : String
  VDD : String
deriving DecidableEq

/-- The `Corner`: nmos/pmos/temperature corner descriptor. -/
structure Corner where
  nmos : String
  pmos : String
  temperature : String
deriving DecidableEq

/-- The `MinMaxCap`: max/min cap file pair. -/
structure MinMaxCap where
  max_cap : String
  min_cap : String
deriving DecidableEq

/-- The `SpiceModelFile`: path plus lib corner. -/
structure SpiceModelFile where
  path : String
  lib_corner : String
deriving DecidableEq

/-- The `Library`: one IP/cell library, a flat record of optional artifacts.
Absence of a field means the library does not provide that artifact. -/
structure Library where
  name : Option String := Option.none
  ccs_liberty_file : Option String := Option.none
  ccs_library_file : Option String := Option.none
  ecsm_liberty_file : Option String := Option.none
  ecsm_library_file : Option String := Option.none
  corner : Option Corner := Option.none
  itf_files : Option MinMaxCap := Option.none
  lef_file : Option String := Option.none
  klayout_techfile : Option String := Option.none
  spice_file : Option String := Option.none
  gds_file : Option String := Option.none
  milkyway_lib_in_dir : Option String := Option.none
  milkyway_techfile : Option String := Option.none
  nldm_liberty_file : Option String := Option.none
  nldm_library_file : Option String := Option.none
  openaccess_techfile : Option String := Option.none
  provides : Option (List Provide) := Option.none
  qrc_techfile : Option String := Option.none
  supplies : Option Supplies := Option.none
  tluplus_files : Option MinMaxCap := Option.none
  tluplus_map_file : Option String := Option.none
  verilog_sim : Option String := Option.none
  verilog_synth : Option String := Option.none
  spice_model_file : Option SpiceModelFile := Option.none
  power_grid_library : Option String := Option.none
  extra_prefixes : Option (List PathPfx) := Option.none
deriving DecidableEq

/-- The `DRCDeck`: a DRC rule deck entry. -/
structure DRCDeck where
  tool_name : String
  deck_name : String
  path : String
deriving DecidableEq

/-- The `LVSDeck`: an LVS rule deck entry. -/
structure LVSDeck where
  tool_name : String
  deck_name : String
  path : String
deriving DecidableEq

/-- The `Tarball`: a declared archive with its root prefix and optionality. -/
structure Tarball where
  root : PathPfx
  homepage : String
  optional : Bool := false
deriving DecidableEq

/-- Modelled from the spec: a placement site (`{name, x, y}` in grid units);
the full `Site` model lives in the source but its coordinate arithmetic is
not exercised by any claim. -/
structure Site where
  name : String
  x : Rat
  y : Rat
deriving DecidableEq

/-- Modelled from the spec: a metal stackup; the full definition lives in
`hammer/tech/stackup.py`, which is not under `src/`. Only its presence as a
descriptor field matters here. -/
structure Stackup where
  name : String
deriving DecidableEq

/-- Modelled from the spec: a special-cell classification; the full definition
lives in `hammer/tech/specialcells.py`, which is not under `src/`. -/
structure SpecialCell where
  cell_type : String
  name : List String := []
deriving DecidableEq

/-- The `TechJSON`: the technology descriptor (aggregate root). -/
structure TechJSON where
  name : String
  grid_unit : Option String := Option.none
  shrink_factor : Option String := Option.none
  installs : Option (List PathPfx) := Option.none
  libraries : Option (List Library) := Option.none
  gds_map_file : Option String := Option.none
  physical_only_cells_list : Option (List String) := Option.none
  dont_use_list : Option (List String) := Option.none
  drc_decks : Option (List DRCDeck) := Option.none
  lvs_decks : Option (List LVSDeck) := Option.none
  tarballs : Option (List Tarball) := Option.none
  sites : Option (List Site) := Option.none
  stackups : Option (List Stackup) := Option.none
  special_cells : Option (List SpecialCell) := Option.none
  extra_prefixes : Option (List PathPfx) := Option.none
  additional_lvs_text : Option String := Option.none
  additional_drc_text : Option String := Option.none
deriving DecidableEq

/-- The `ExtraLibrary`: an extra library plus a possible prefix. (The Python field
is named `prefix`; it is called `pfx` here.) -/
structure ExtraLibrary where
  pfx : Option PathPfx
  library : Library
deriving DecidableEq

/-- The `copy_library`: the Python performs a JSON round-trip
(`Library.parse_raw(lib.json())`) to obtain an independent deep copy with the
same field values; on immutable values this is the identity. -/
def copy_library (lib : Library) : Library := lib

/-- The `ExtraLibrary.store_into_library`: copy the contained library and replace
its `extra_prefixes` with the declared prefix (one-element list if present,
empty list otherwise). -/
def ExtraLibrary.store_into_library (el : ExtraLibrary) : Library :=
  let lib_copied : Library := copy_library el.library
  let eps : List PathPfx :=
    match el.pfx with
    | some p => [p]
    | Option.none => []
  { lib_copied with extra_prefixes := some eps }

/-! ## The technology environment

State read by `HammerTechnology` methods: the settings database, the cache
directory, the technology package's bundled resources, and the filesystem.
The database is modelled as a partial map from dotted keys to string values
(`get_setting`; a missing key yields `None` in the Python after the caught
`KeyError`), plus `has_setting`. The setting `"vlsi.inputs.mmmc_corners"`
holds structured corner data that `filter_for_supplies` consults only for
truthiness, recorded here as the boolean `mmmcNonempty`. The parsed value of
`"vlsi.technology.extra_libraries"` (a list of `ExtraLibrary`) is recorded
as `extra_libraries`. -/
structure TechEnv where
  name : String
  settings : String → Option String
  has_setting : String → Bool
  mmmcNonempty : Bool
  cache_dir : String
  package_root : String
  package_files : List String
  isfile : String → Bool
  isdir : String → Bool
  path_exists : String → Bool
  extra_libraries : List ExtraLibrary

/-- The `str(self.get_setting(key))` as used by `check_installs`: Python's `str`
renders an absent value (`None`) as the string `"None"`. -/
def strOfSetting : Option String → String
  | some s => s
  | Option.none => "None"

/-- The `HammerTechnology.extracted_tarballs_dir`: prefer the per-technology
setting when present and non-null, then the global setting, then
`<cache_dir>/extracted`. -/
def extracted_tarballs_dir (env : TechEnv) : String :=
  let tech_setting_key := "technology." ++ env.name ++ ".extracted_tarballs_dir"
  match (if env.has_setting tech_setting_key then env.settings tech_setting_key else Option.none) with
  | some s => s
  | Option.none =>
    match env.settings "vlsi.technology.extracted_tarballs_dir" with
    | some s => s
    | Option.none => pathJoin env.cache_dir "extracted"

/-! ## Path prefix resolution (`HammerTechnology.prepend_dir_path`) -/

/-- Candidates from the descriptor's installs whose id matches: each install's
`path` field is a settings key (double indirection); the looked-up value
becomes the candidate's path. A non-string (absent) value makes the
`PathPrefix` construction fail, i.e. raises. -/
def installCandidates (env : TechEnv) (cfg : TechJSON) (id : String) :
    Except String (List PathPfx) :=
  match cfg.installs with
  | some installs =>
    mapME
      (fun pp =>
        match env.settings pp.path with
        | some p => Except.ok { id := id, path := p : PathPfx }
        | Option.none =>
          Except.error ("install path setting " ++ pp.path ++ " is not a string"))
      (installs.filter (fun pp => pp.id == id))
  | Option.none => Except.ok []

/-- Candidates from the descriptor's tarballs whose root id matches, mapped to
`join(extracted_tarballs_dir, root_id)`. -/
def tarballCandidates (env : TechEnv) (cfg : TechJSON) (id : String) : List PathPfx :=
  match cfg.tarballs with
  | some ts =>
    (ts.filter (fun t => t.root.id == id)).map
      (fun t => { id := id, path := pathJoin (extracted_tarballs_dir env) t.root.id : PathPfx })
  | Option.none => []

/-- Candidates from the owning library's `extra_prefixes`, when a library was
supplied. -/
def libCandidates (lib : Option Library) (id : String) : List PathPfx :=
  match lib with
  | some l => (l.extra_prefixes.getD []).filter (fun pp => pp.id == id)
  | Option.none => []

/-- All prefix candidates matching `id`, in source order: installs, then
tarballs, then the owning library's extra prefixes. -/
def candidates (env : TechEnv) (cfg : TechJSON) (id : String) (lib : Option Library) :
    Except String (List PathPfx) :=
  match installCandidates env cfg id with
  | Except.error e => Except.error e
  | Except.ok fromInstalls =>
    Except.ok (fromInstalls ++ tarballCandidates env cfg id ++ libCandidates lib id)

/-- Final stage of `prepend_dir_path`: exactly one candidate must match; zero
or more than one is a `ValueError`. -/
def pickCandidate (path id : String) (rest : List String) (cands : List PathPfx) :
    Except String String :=
  if cands.length < 1 then
    Except.error ("Path " ++ path ++ " with prefix id " ++ id ++
      " did not match any tarballs or installs")
  else if cands.length > 1 then
    Except.error ("Path " ++ path ++ " with prefix id " ++ id ++
      " matched more than one tarball or install")
  else
    Except.ok ((cands.headD { id := "", path := "" }).prepend (joinParts rest))

/-- The `HammerTechnology.prepend_dir_path`: the five-case path resolution.
1. absolute paths are returned unchanged; 2. separator-free paths are
technology-package resources (asserted to exist); 3. a leading `cache`
segment resolves against the cache dir; 4./5. otherwise the leading segment
is matched against installs, tarballs and the owning library's extra
prefixes, requiring exactly one match. The empty path fails the function's
entry assertion. -/
def prepend_dir_path (env : TechEnv) (cfg : TechJSON) (path : String)
    (lib : Option Library) : Except String String :=
  if path = "" then Except.error "path must not be empty"
  else if strIsAbs path then Except.ok path
  else if (splitPath path).length = 1 then
    (if env.package_files.contains path then Except.ok (pathJoin env.package_root path)
     else Except.error (path ++ " was not found in the technology Python package"))
  else if (splitPath path).headD "" = "cache" then
    Except.ok (joinParts (env.cache_dir :: (splitPath path).tail))
  else
    match candidates env cfg ((splitPath path).headD "") lib with
    | Except.error e => Except.error e
    | Except.ok cands =>
      pickCandidate path ((splitPath path).headD "") ((splitPath path).tail) cands

/-! ## Deck accessors -/

/-- The in-place path resolution loop of `get_lvs_decks_for_tool`: every
deck's `path` field is overwritten with its resolved value (decks are
resolved with no owning library). -/
def resolveLVSDecks (env : TechEnv) (cfg : TechJSON) (decks : List LVSDeck) :
    Except String (List LVSDeck) :=
  mapME
    (fun d =>
      match prepend_dir_path env cfg d.path Option.none with
      | Except.error e => Except.error e
      | Except.ok p => Except.ok { d with path := p })
    decks

/-- The in-place path resolution loop of `get_drc_decks_for_tool`. -/
def resolveDRCDecks (env : TechEnv) (cfg : TechJSON) (decks : List DRCDeck) :
    Except String (List DRCDeck) :=
  mapME
    (fun d =>
      match prepend_dir_path env cfg d.path Option.none with
      | Except.error e => Except.error e
      | Except.ok p => Except.ok { d with path := p })
    decks

/-- The `HammerTechnology.get_lvs_decks_for_tool`: raises when the descriptor has
no `lvs_decks` list; otherwise resolves every deck path in place (mutating
the descriptor — the updated descriptor is returned alongside the result)
and returns the decks whose `tool_name` matches. -/
def get_lvs_decks_for_tool (env : TechEnv) (cfg : TechJSON) (tool_name : String) :
    Except String (TechJSON × List LVSDeck) :=
  match cfg.lvs_decks with
  | some decks =>
    (match resolveLVSDecks env cfg decks with
     | Except.error e => Except.error e
     | Except.ok decks' =>
       Except.ok ({ cfg with lvs_decks := some decks' },
         decks'.filter (fun x => x.tool_name == tool_name)))
  | Option.none => Except.error "Tech JSON does not specify any LVS decks"

/-- The `HammerTechnology.get_drc_decks_for_tool`: as for LVS decks. -/
def get_drc_decks_for_tool (env : TechEnv) (cfg : TechJSON) (tool_name : String) :
    Except String (TechJSON × List DRCDeck) :=
  match cfg.drc_decks with
  | some decks =>
    (match resolveDRCDecks env cfg decks with
     | Except.error e => Except.error e
     | Except.ok decks' =>
       Except.ok ({ cfg with drc_decks := some decks' },
         decks'.filter (fun x => x.tool_name == tool_name)))
  | Option.none => Except.error "Tech JSON does not specify any DRC decks"

/-! ## Archive / install materializer -/

/-- The `HammerTechnology.check_installs`, per-install loop: resolve the install's
`path` field (a settings key) through the database, and check existence; on
the first missing directory, log an error and return `False` immediately.
The returned list is the log of emitted error messages. -/
def check_installs_go (env : TechEnv) : List PathPfx → Bool × List String
  | [] => (true, [])
  | install :: rest =>
    let path_key := install.path
    let install_path := strOfSetting (env.settings path_key)
    if env.path_exists install_path then check_installs_go env rest
    else
      (false,
        ["The install path: " ++ install_path ++ " does not exist, looked at key " ++ path_key])

/-- The `HammerTechnology.check_installs`: `False` when no installs are declared
(`None` or empty list are both falsy), else the loop above. Never raises. -/
def check_installs (env : TechEnv) (cfg : TechJSON) : Bool × List String :=
  match cfg.installs with
  | Option.none => (false, [])
  | some installs =>
    if installs.isEmpty then (false, []) else check_installs_go env installs

/-- Outcome of processing one declared tarball in `extract_tarballs`. -/
inductive TarballAction where
  | skippedMissingOptional
  | alreadyExtracted
  | extracted
deriving DecidableEq

/-- One iteration of `HammerTechnology.extract_tarballs`: compute the target
extraction directory and the source tarball path
(`os.path.join(get_setting(root.path), root.id)`; a missing setting makes the
join raise); first check the source archive file — a missing optional archive
is skipped, a missing non-optional archive raises — and only then skip if the
target directory already exists, else create it and extract (the recursive
extraction/chmod of the archive contents is abstracted as the
`extracted` outcome). -/
def extract_one_tarball (env : TechEnv) (t : Tarball) : Except String TarballAction :=
  let target_path := pathJoin (extracted_tarballs_dir env) t.root.id
  match env.settings t.root.path with
  | Option.none => Except.error "TypeError: join of None and str"
  | some base =>
    let tarball_path := pathJoin base t.root.id
    if env.isfile tarball_path = false then
      (if t.optional then Except.ok TarballAction.skippedMissingOptional
       else Except.error ("Path " ++ tarball_path ++ " does not point to a valid tarball!"))
    else if env.isdir target_path then Except.ok TarballAction.alreadyExtracted
    else Except.ok TarballAction.extracted

/-- The `HammerTechnology.extract_tarballs`: no-op when no tarballs are declared
(`None` or empty are both falsy), else process each declared tarball in
order, stopping at the first raise. -/
def extract_tarballs (env : TechEnv) (cfg : TechJSON) : Except String (List TarballAction) :=
  match cfg.tarballs with
  | Option.none => Except.ok []
  | some ts => if ts.isEmpty then Except.ok [] else mapME (extract_one_tarball env) ts

/-- The `HammerTechnology.extract_technology_files`: raises when neither tarballs
nor installs are declared; otherwise runs `check_installs` when installs are
declared (ignoring its result), then `extract_tarballs` when tarballs are
declared. The pair of install-check results and tarball actions is returned
for observation. -/
def extract_technology_files (env : TechEnv) (cfg : TechJSON) :
    Except String ((Bool × List String) × List TarballAction) :=
  match cfg.installs, cfg.tarballs with
  | Option.none, Option.none => Except.error "Technology specified neither tarballs nor installs"
  | _, _ =>
    let installs_result :=
      match cfg.installs with
      | some _ => check_installs env cfg
      | Option.none => (true, [])
    match (match cfg.tarballs with
           | some _ => extract_tarballs env cfg
           | Option.none => Except.ok []) with
    | Except.error e => Except.error e
    | Except.ok actions => Except.ok (installs_result, actions)

/-! ## Supply pre-filter -/

/-- The `HammerTechnology.filter_for_supplies`: under MMMC every library is
accepted; a library with no supplies annotation is accepted (the
technology-`provides` check only decides whether the "no supplies annotation"
warning is skipped); a library with a supplies annotation is accepted iff its
VDD and GND equal the configured supply settings. -/
def filter_for_supplies (env : TechEnv) (lib : Library) : Bool :=
  if env.mmmcNonempty then true
  else
    match lib.supplies with
    | Option.none =>
      if (lib.provides.getD []).any (fun provided => provided.lib_type == "technology") then
        true
      else
        -- logs "Lib ... has no supplies annotation! Using anyway." and falls through
        true
    | some s =>
      (env.settings "vlsi.inputs.supplies.VDD" == some s.VDD)
        && (env.settings "vlsi.inputs.supplies.GND" == some s.GND)

/-! ## Filter definitions and the execution engine -/

/-- The `LibraryFilter`: a declarative query over libraries — tag, description,
file/directory flag, path extractor, optional extraction transform, optional
selection predicate, optional sort key and list-level post filters. The sort
key is `Union[Number, str, tuple]` in the source; the pre-implemented filters
only ever use small integers, embedded as `Int`. -/
structure LibraryFilter where
  tag : String
  description : String
  is_file : Bool
  paths_func : Library → List String
  extraction_func : Option (Library → List String → List String) := Option.none
  filter_func : Option (Library → Bool) := Option.none
  sort_func : Option (Library → Int) := Option.none
  extra_post_filter_funcs : List (List String → List String) := []

/-- The `HammerTechnologyUtils.to_plain_item`. -/
def to_plain_item (lib_item : String) (_filt : LibraryFilter) : List String :=
  [lib_item]

/-- The `HammerTechnologyUtils.to_command_line_args`:
`["--" + filt.tag, lib_item]`. -/
def to_command_line_args (lib_item : String) (filt : LibraryFilter) : List String :=
  ["--" ++ filt.tag, lib_item]

/-- The `HammerTechnology.tech_defined_libraries`: the descriptor's libraries, or
`[]` when absent (`None` and the empty list are both falsy). -/
def tech_defined_libraries (cfg : TechJSON) : List Library :=
  match cfg.libraries with
  | some libs => libs
  | Option.none => []

/-- The `HammerTechnology.get_available_libraries`: technology-defined libraries
plus every extra library from the settings with its declared prefix folded
into `extra_prefixes`. -/
def get_available_libraries (env : TechEnv) (cfg : TechJSON) : List Library :=
  tech_defined_libraries cfg ++ env.extra_libraries.map ExtraLibrary.store_into_library

/-- Modelled from the spec: `hammer.utils.in_place_unique` is not under
`src/`; the spec says the de-duplication step removes later duplicates,
preserving first-occurrence order. `seen` accumulates the items already kept. -/
def ipuAux (seen : List String) : List String → List String
  | [] => []
  | x :: xs =>
    if seen.contains x then ipuAux seen xs
    else x :: ipuAux (x :: seen) xs

/-- Modelled from the spec: in-place de-duplication keeping the first
occurrence of each string. -/
def in_place_unique (l : List String) : List String :=
  ipuAux [] l

/-- Per-path existence check generated by `make_check_isfile` /
`make_check_isdir`: raises naming the filter description and the path. -/
def check_path (env : TechEnv) (is_file : Bool) (description : String) (p : String) :
    Except String String :=
  if is_file then
    (if env.isfile p then Except.ok p
     else Except.error (description ++ " " ++ p ++ " is not a file or does not exist"))
  else
    (if env.isdir p then Except.ok p
     else Except.error (description ++ " " ++ p ++ " is not a directory or does not exist"))

/-- The `check_lib_and_paths` inside `process_library_filter`: run the existence
check over a library's resolved paths. -/
def checkLibAndPaths (env : TechEnv) (filt : LibraryFilter)
    (t : Library × List String) : Except String (Library × List String) :=
  match mapME (check_path env filt.is_file filt.description) t.2 with
  | Except.error e => Except.error e
  | Except.ok paths => Except.ok (t.1, paths)

/-- The `get_and_prepend_path` mapped over the filtered libraries: extract each
library's paths with `paths_func` and resolve them with the library as the
owning library. -/
def prependAll (env : TechEnv) (cfg : TechJSON) (filt : LibraryFilter)
    (libs : List Library) : Except String (List (Library × List String)) :=
  mapME
    (fun lib =>
      match mapME (fun p => prepend_dir_path env cfg p (some lib)) (filt.paths_func lib) with
      | Except.error e => Except.error e
      | Except.ok full_paths => Except.ok (lib, full_paths))
    libs

/-- The `HammerTechnology.process_library_filter`: selection by the pre-filters
plus the filter's own predicate (reduce over `filter`), optional stable sort,
path extraction and resolution, optional existence checks, extraction
(identity by default), concatenation, optional de-duplication, list-level
post filters, and per-item output formatting. The runtime `List[str]` shape
check of the source is guaranteed by typing here. -/
def process_library_filter (env : TechEnv) (cfg : TechJSON) (filt : LibraryFilter)
    (pre_filts : List (Library → Bool)) (output_func : String → LibraryFilter → List String)
    (must_exist : Bool) (uniquify : Bool) : Except String (List String) :=
  let lib_filters := pre_filts ++ (match filt.filter_func with
    | some f => [f]
    | Option.none => [])
  let filtered_libs := lib_filters.foldl (fun ls f => ls.filter f)
    (get_available_libraries env cfg)
  let sorted_libs := match filt.sort_func with
    | some sf => filtered_libs.mergeSort (fun a b => sf a ≤ sf b)
    | Option.none => filtered_libs
  match prependAll env cfg filt sorted_libs with
  | Except.error e => Except.error e
  | Except.ok libs_and_paths =>
    match (if must_exist then mapME (checkLibAndPaths env filt) libs_and_paths
           else Except.ok libs_and_paths) with
    | Except.error e => Except.error e
    | Except.ok checked =>
      let extraction_func := match filt.extraction_func with
        | some f => f
        | Option.none => fun _ paths => paths
      let output_list := (checked.map (fun t => extraction_func t.1 t.2)).foldl
        (fun a b => a ++ b) []
      let output_list' := if uniquify then in_place_unique output_list else output_list
      let after_post := filt.extra_post_filter_funcs.foldl (fun l f => f l) output_list'
      Except.ok ((after_post.map (fun item => output_func item filt)).foldl
        (fun a b => a ++ b) [])

/-! ## Pre-implemented filters (`LibraryFilterHolder`) -/

/-- The `timing_db_filter.paths_func`: choose the CCS `.db` if available, else
the NLDM `.db`, else nothing. -/
def timing_db_paths (lib : Library) : List String :=
  match lib.ccs_library_file with
  | some p => [p]
  | Option.none =>
    match lib.nldm_library_file with
    | some p => [p]
    | Option.none => []

/-- The `LibraryFilterHolder.timing_db_filter`. -/
def timing_db_filter : LibraryFilter :=
  { tag := "timing_db"
    description := "CCS/NLDM timing lib (Synopsys .db)"
    is_file := true
    paths_func := timing_db_paths }

/-- The `timing_lib_filter.paths_func`: choose the CCS liberty `.lib` if
available, else the NLDM liberty, else nothing. -/
def timing_lib_paths (lib : Library) : List String :=
  match lib.ccs_liberty_file with
  | some p => [p]
  | Option.none =>
    match lib.nldm_liberty_file with
    | some p => [p]
    | Option.none => []

/-- The `LibraryFilterHolder.timing_lib_filter`. -/
def timing_lib_filter : LibraryFilter :=
  { tag := "timing_lib"
    description := "CCS/NLDM timing lib (ASCII .lib)"
    is_file := true
    paths_func := timing_lib_paths }

/-- The `spice_filter.paths_func`; the source asserts `spice_file` is non-`None`
(guaranteed by `spice_filter.filter_func` in the pipeline) and returns it. -/
def spice_paths (lib : Library) : List String :=
  match lib.spice_file with
  | some p => [p]
  | Option.none => []

/-- The `LibraryFilterHolder.spice_filter`. -/
def spice_filter : LibraryFilter :=
  { tag := "spice"
    description := "SPICE files"
    is_file := true
    filter_func := some (fun lib => lib.spice_file.isSome)
    paths_func := spice_paths }

/-! ## Concrete fixtures for witnesses and counterexamples -/

/-- A baseline environment: empty settings database, MMMC off, cache at
`/cache`, a filesystem on which everything exists. -/
def env0 : TechEnv :=
  { name := "mytech"
    settings := fun _ => Option.none
    has_setting := fun _ => false
    mmmcNonempty := false
    cache_dir := "/cache"
    package_root := "/pkg/mytech"
    package_files := []
    isfile := fun _ => true
    isdir := fun _ => true
    path_exists := fun _ => true
    extra_libraries := [] }

/-- Environment with configured supplies VDD=1.0, GND=VSS and MMMC off. -/
def envC1 : TechEnv :=
  { env0 with
    settings := fun k =>
      if k = "vlsi.inputs.supplies.VDD" then some "1.0"
      else if k = "vlsi.inputs.supplies.GND" then some "VSS"
      else Option.none }

/-- A library explicitly marked as a core technology-type library whose
declared supplies do not match `envC1`'s configured supplies. -/
def libC1 : Library :=
  { supplies := some { GND := "VSS", VDD := "0.8" }
    provides := some [{ lib_type := "technology" }] }

/-- A technology-marked library whose supplies do match `envC1`'s settings. -/
def libC1match : Library :=
  { supplies := some { GND := "VSS", VDD := "1.0" }
    provides := some [{ lib_type := "technology" }] }

/-- Environment for the tarball fixture: the declared tarball's source file is
missing while its target extraction directory already exists. -/
def envC2 : TechEnv :=
  { env0 with
    settings := fun k => if k = "tech.mytech.tarball_dir" then some "/tarballs" else Option.none
    isfile := fun _ => false
    isdir := fun _ => true }

/-- Descriptor declaring one non-optional tarball. -/
def cfgC2 : TechJSON :=
  { name := "mytech"
    tarballs := some [{ root := { id := "mytech.tar.gz", path := "tech.mytech.tarball_dir" }
                        homepage := "https://example.com" }] }

/-- Descriptor with one LVS deck and one DRC deck using cache-relative paths. -/
def cfgC3 : TechJSON :=
  { name := "mytech"
    lvs_decks := some [{ tool_name := "toolA", deck_name := "deck1", path := "cache/lvs.rules" }]
    drc_decks := some [{ tool_name := "toolA", deck_name := "deck2", path := "cache/drc.rules" }] }

/-- The LVS deck of `cfgC3` after path resolution against `env0`. -/
def deckC3lvs : LVSDeck :=
  { tool_name := "toolA", deck_name := "deck1", path := "/cache/lvs.rules" }

/-- The DRC deck of `cfgC3` after path resolution against `env0`. -/
def deckC3drc : DRCDeck :=
  { tool_name := "toolA", deck_name := "deck2", path := "/cache/drc.rules" }

/-- The `cfgC3` with its LVS decks overwritten by their resolved versions. -/
def cfgC3lvs : TechJSON :=
  { cfgC3 with lvs_decks := some [deckC3lvs] }

/-- Environment for the install fixture: the settings database resolves the
two install keys, but neither resolved directory exists. -/
def envC4 : TechEnv :=
  { env0 with
    settings := fun k =>
      if k = "keyA" then some "/a" else if k = "keyB" then some "/b" else Option.none
    path_exists := fun _ => false }

/-- Descriptor declaring two installs (both of whose directories are missing
under `envC4`). -/
def cfgC4 : TechJSON :=
  { name := "mytech"
    installs := some [{ id := "ia", path := "keyA" }, { id := "ib", path := "keyB" }] }

/-- Environment whose settings database maps the install key
`tech.pdk.install` to `/nfs/pdk`. -/
def envC5 : TechEnv :=
  { env0 with
    settings := fun k => if k = "tech.pdk.install" then some "/nfs/pdk" else Option.none }

/-- Descriptor declaring a single install with prefix id `pdkroot`. -/
def cfgC5 : TechJSON :=
  { name := "mytech"
    installs := some [{ id := "pdkroot", path := "tech.pdk.install" }] }

/-- Descriptor where an install and a tarball share the prefix id `pdkroot`. -/
def cfgC5multi : TechJSON :=
  { name := "mytech"
    installs := some [{ id := "pdkroot", path := "tech.pdk.install" }]
    tarballs := some [{ root := { id := "pdkroot", path := "tech.pdk.tarball" }
                        homepage := "https://example.com" }] }

/-- A library declaring both CCS and NLDM timing views (absolute paths). -/
def libC7both : Library :=
  { ccs_library_file := some "/lib/tt.ccs.db"
    nldm_library_file := some "/lib/tt.nldm.db"
    ccs_liberty_file := some "/lib/tt.ccs.lib"
    nldm_liberty_file := some "/lib/tt.nldm.lib" }

/-- A library declaring only NLDM timing views. -/
def libC7nldm : Library :=
  { nldm_library_file := some "/lib/tt.nldm.db"
    nldm_liberty_file := some "/lib/tt.nldm.lib" }

/-- A library declaring no timing views at all. -/
def libC7none : Library :=
  { name := some "noviews" }

/-- Descriptor whose only library declares no timing views. -/
def cfgC7 : TechJSON :=
  { name := "mytech", libraries := some [libC7none] }

/-- A library holding just a SPICE file at the given absolute path. -/
def spiceLib (p : String) : Library :=
  { spice_file := some p }

/-- Descriptor with four SPICE libraries whose extracted paths are
`[/a, /b, /a, /c]` — a duplicated entry in first-occurrence order. -/
def cfgC8 : TechJSON :=
  { name := "mytech"
    libraries := some [spiceLib "/a", spiceLib "/b", spiceLib "/a", spiceLib "/c"] }

/-- Descriptor declaring non-empty LVS and DRC deck lists (absolute deck
paths), for tool `toolB` only. -/
def cfgC9 : TechJSON :=
  { name := "mytech"
    lvs_decks := some [{ tool_name := "toolB", deck_name := "deck1", path := "/decks/lvs.rules" }]
    drc_decks := some [{ tool_name := "toolB", deck_name := "deck2", path := "/decks/drc.rules" }] }

/-- Descriptor with no deck lists at all. -/
def cfgC9none : TechJSON :=
  { name := "mytech" }

/-- An `ExtraLibrary` with a declared prefix whose library already carries
(unrelated) extra prefixes of its own. -/
def elC10 : ExtraLibrary :=
  { pfx := some { id := "lib1", path := "/design_files/caps/" }
    library := { name := some "lib1"
                 spice_file := some "/sp.cir"
                 extra_prefixes := some [{ id := "old", path := "/old" }] } }

/-- The tarball declared by `cfgC2`. -/
def tC2 : Tarball :=
  { root := { id := "mytech.tar.gz", path := "tech.mytech.tarball_dir" }
    homepage := "https://example.com" }

/-- The `envC2` with the tarball source file present (target dir still exists). -/
def envC2b : TechEnv :=
  { envC2 with isfile := fun _ => true }

/-! ## Helper lemmas -/

theorem mapME_ok_of_all {α β : Type} (f : α → Except String β) (g : α → β) :
    ∀ l : List α, (∀ x ∈ l, f x = Except.ok (g x)) → mapME f l = Except.ok (l.map g) := by
  intro l h
  induction l with
  | nil => rfl
  | cons x xs ih =>
    have hx := h x (List.mem_cons_self x xs)
    have hxs := ih (fun y hy => h y (List.mem_cons_of_mem x hy))
    simp [mapME, hx, hxs]

theorem mem_foldl_filter {α : Type} (fs : List (α → Bool)) :
    ∀ (init : List α) (x : α), x ∈ fs.foldl (fun ls f => ls.filter f) init → x ∈ init := by
  induction fs with
  | nil => intro init x h; simpa using h
  | cons f fs ih =>
    intro init x h
    exact (List.mem_filter.mp (ih (init.filter f) x h)).1

theorem strIsAbs_ne_empty {p : String} (h : strIsAbs p = true) : p ≠ "" := by
  intro he
  rw [he] at h
  exact absurd h (by decide)

theorem prepend_dir_path_abs (env : TechEnv) (cfg : TechJSON) (lib : Option Library)
    {p : String} (h : strIsAbs p = true) :
    prepend_dir_path env cfg p lib = Except.ok p := by
  unfold prepend_dir_path
  rw [if_neg (strIsAbs_ne_empty h), if_pos h]

/-! ## C1: supply pre-filter vs technology-marked libraries -/

/-- C1 counterexample: `libC1` is explicitly marked as a core technology-type
library (a `provides` entry with `lib_type = "technology"`), multi-corner
mode is off, yet `filter_for_supplies` rejects it because its declared
supplies do not equal the configured supply settings — the technology-type
acceptance is only consulted when the library has no supplies annotation. -/
theorem c1_counterexample :
    libC1.provides = some [{ lib_type := "technology" }]
    ∧ envC1.mmmcNonempty = false
    ∧ envC1.settings "vlsi.inputs.supplies.VDD" = some "1.0"
    ∧ libC1.supplies = some { GND := "VSS", VDD := "0.8" }
    ∧ filter_for_supplies envC1 libC1 = false := by
  refine ⟨rfl, rfl, by decide, rfl, by decide⟩

/-- C1 amended: with multi-corner mode off, a library with no supplies
annotation is always accepted (whether or not it is technology-marked), and a
library with a supplies annotation — even a technology-marked one — is
accepted if and only if its VDD and GND equal the configured supply
settings. -/
theorem c1_amended (env : TechEnv) (lib : Library) (hm : env.mmmcNonempty = false) :
    (lib.supplies = Option.none → filter_for_supplies env lib = true)
    ∧ ∀ s : Supplies, lib.supplies = some s →
        (filter_for_supplies env lib = true ↔
          (env.settings "vlsi.inputs.supplies.VDD" = some s.VDD
            ∧ env.settings "vlsi.inputs.supplies.GND" = some s.GND)) := by
  constructor
  · intro hs
    simp [filter_for_supplies, hm, hs]
  · intro s hs
    simp [filter_for_supplies, hm, hs]

/-- C1 witness: the amended statement evaluated at `envC1` and a
technology-marked library with matching supplies, which is accepted. -/
theorem c1_witness : filter_for_supplies envC1 libC1match = true := by
  exact ((c1_amended envC1 libC1match rfl).2 { GND := "VSS", VDD := "1.0" } rfl).mpr
    ⟨by decide, by decide⟩

/-! ## C2: archive materialization check order -/

/-- C2 counterexample: for `cfgC2`'s single non-optional tarball, the target
extraction directory already exists under `envC2`, yet `extract_tarballs`
raises because the source archive file is missing — the source-archive check
runs before (not after) the target-directory short-circuit. -/
theorem c2_counterexample :
    envC2.isdir (pathJoin (extracted_tarballs_dir envC2) "mytech.tar.gz") = true
    ∧ envC2.isfile (pathJoin "/tarballs" "mytech.tar.gz") = false
    ∧ tC2.optional = false
    ∧ cfgC2.tarballs = some [tC2]
    ∧ isErr (extract_tarballs envC2 cfgC2) = true := by
  refine ⟨rfl, rfl, rfl, rfl, by decide⟩

/-- C2 amended: for each declared archive, `extract_tarballs` first locates
the source archive file — raising when a non-optional source is missing (even
when the target directory already exists) and silently skipping a missing
optional one — and only past that check does the target-directory existence
test run: when the target directory exists the archive is treated as
already-materialized and skipped, so a second run is a no-op provided the
source archives are still present. -/
theorem c2_amended (env : TechEnv) (t : Tarball) (base : String)
    (hb : env.settings t.root.path = some base) :
    (env.isfile (pathJoin base t.root.id) = false → t.optional = false →
        isErr (extract_one_tarball env t) = true)
    ∧ (env.isfile (pathJoin base t.root.id) = false → t.optional = true →
        extract_one_tarball env t = Except.ok TarballAction.skippedMissingOptional)
    ∧ (env.isfile (pathJoin base t.root.id) = true →
        env.isdir (pathJoin (extracted_tarballs_dir env) t.root.id) = true →
        extract_one_tarball env t = Except.ok TarballAction.alreadyExtracted)
    ∧ (env.isfile (pathJoin base t.root.id) = true →
        env.isdir (pathJoin (extracted_tarballs_dir env) t.root.id) = false →
        extract_one_tarball env t = Except.ok TarballAction.extracted) := by
  unfold extract_one_tarball
  rw [hb]
  refine ⟨?_, ?_, ?_, ?_⟩ <;> intro h1 h2 <;> simp [h1, h2, isErr]

/-- C2 witness: the amended characterization evaluated on `cfgC2`'s tarball:
it raises under `envC2` (missing non-optional source, target present) and is
treated as already-materialized under `envC2b` (source present, target
present). -/
theorem c2_witness :
    isErr (extract_one_tarball envC2 tC2) = true
    ∧ extract_one_tarball envC2b tC2 = Except.ok TarballAction.alreadyExtracted := by
  constructor
  · exact (c2_amended envC2 tC2 "/tarballs" rfl).1 rfl rfl
  · exact (c2_amended envC2b tC2 "/tarballs" rfl).2.2.1 rfl rfl

/-! ## C3: the deck accessors mutate the descriptor -/

/-- C3 counterexample: `get_lvs_decks_for_tool` does not leave the descriptor
unchanged — it writes the resolved path back into the deck, so the descriptor
returned alongside the result differs from the input descriptor. -/
theorem c3_counterexample :
    cfgC3.lvs_decks
      = some [{ tool_name := "toolA", deck_name := "deck1", path := "cache/lvs.rules" }]
    ∧ get_lvs_decks_for_tool env0 cfgC3 "toolA" = Except.ok (cfgC3lvs, [deckC3lvs])
    ∧ cfgC3lvs.lvs_decks ≠ cfgC3.lvs_decks := by
  refine ⟨rfl, ?_, by decide⟩
  rfl

/-- C3 amended: the deck accessors do mutate the descriptor, but only its
deck list: on success `get_lvs_decks_for_tool` (resp. `get_drc_decks_for_tool`)
returns a descriptor equal to the input in every field except `lvs_decks`
(resp. `drc_decks`), which is overwritten with the path-resolved decks, and
returns the resolved decks filtered by tool name. (Filter execution and
`prepend_dir_path` are pure readers of the descriptor and mutate nothing.) -/
theorem c3_amended :
    (∀ (env : TechEnv) (cfg : TechJSON) (tool : String) (cfg' : TechJSON)
        (res : List LVSDeck),
      get_lvs_decks_for_tool env cfg tool = Except.ok (cfg', res) →
        cfg' = { cfg with lvs_decks := cfg'.lvs_decks }
        ∧ ∃ decks', cfg'.lvs_decks = some decks'
            ∧ resolveLVSDecks env cfg (cfg.lvs_decks.getD []) = Except.ok decks'
            ∧ res = decks'.filter (fun x => x.tool_name == tool))
    ∧ (∀ (env : TechEnv) (cfg : TechJSON) (tool : String) (cfg' : TechJSON)
        (res : List DRCDeck),
      get_drc_decks_for_tool env cfg tool = Except.ok (cfg', res) →
        cfg' = { cfg with drc_decks := cfg'.drc_decks }
        ∧ ∃ decks', cfg'.drc_decks = some decks'
            ∧ resolveDRCDecks env cfg (cfg.drc_decks.getD []) = Except.ok decks'
            ∧ res = decks'.filter (fun x => x.tool_name == tool)) := by
  constructor
  · intro env cfg tool cfg' res h
    unfold get_lvs_decks_for_tool at h
    cases hd : cfg.lvs_decks with
    | none => rw [hd] at h; exact Except.noConfusion h
    | some decks =>
      rw [hd] at h
      dsimp only at h
      cases hr : resolveLVSDecks env cfg decks with
      | error e => rw [hr] at h; exact Except.noConfusion h
      | ok decks' =>
        rw [hr] at h
        injection h with h'
        cases h'
        refine ⟨rfl, decks', rfl, ?_, rfl⟩
        exact hr
  · intro env cfg tool cfg' res h
    unfold get_drc_decks_for_tool at h
    cases hd : cfg.drc_decks with
    | none => rw [hd] at h; exact Except.noConfusion h
    | some decks =>
      rw [hd] at h
      dsimp only at h
      cases hr : resolveDRCDecks env cfg decks with
      | error e => rw [hr] at h; exact Except.noConfusion h
      | ok decks' =>
        rw [hr] at h
        injection h with h'
        cases h'
        refine ⟨rfl, decks', rfl, ?_, rfl⟩
        exact hr

/-- C3 witness: the amended statement evaluated at `env0`, `cfgC3` and tool
`toolA`: only the `lvs_decks` field changed, and it now holds the resolved
deck. -/
theorem c3_witness :
    cfgC3lvs = { cfgC3 with lvs_decks := cfgC3lvs.lvs_decks }
    ∧ ∃ decks', cfgC3lvs.lvs_decks = some decks'
        ∧ resolveLVSDecks env0 cfgC3 (cfgC3.lvs_decks.getD []) = Except.ok decks'
        ∧ [deckC3lvs] = decks'.filter (fun x => x.tool_name == "toolA") :=
  c3_amended.1 env0 cfgC3 "toolA" cfgC3lvs [deckC3lvs] rfl

/-! ## C4: install checking -/

theorem check_installs_go_fst (env : TechEnv) :
    ∀ l : List PathPfx,
      ((check_installs_go env l).1 = true ↔
        ∀ i ∈ l, env.path_exists (strOfSetting (env.settings i.path)) = true) := by
  intro l
  induction l with
  | nil => simp [check_installs_go]
  | cons i rest ih =>
    by_cases hp : env.path_exists (strOfSetting (env.settings i.path)) = true
    · simp [check_installs_go, hp, ih]
    · simp [check_installs_go, hp]

theorem check_installs_go_len (env : TechEnv) :
    ∀ l : List PathPfx, (check_installs_go env l).2.length ≤ 1 := by
  intro l
  induction l with
  | nil => simp [check_installs_go]
  | cons i rest ih =>
    by_cases hp : env.path_exists (strOfSetting (env.settings i.path)) = true
    · simpa [check_installs_go, hp] using ih
    · simp [check_installs_go, hp]

/-- C4 counterexample: under `envC4` both declared install directories are
missing, yet `check_installs` logs only the first missing install and returns
`false` immediately — the installs are not each checked and reported
independently of the others. -/
theorem c4_counterexample :
    envC4.path_exists "/a" = false
    ∧ envC4.path_exists "/b" = false
    ∧ cfgC4.installs = some [{ id := "ia", path := "keyA" }, { id := "ib", path := "keyB" }]
    ∧ check_installs envC4 cfgC4
        = (false, ["The install path: /a does not exist, looked at key keyA"]) := by
  refine ⟨rfl, rfl, rfl, by decide⟩

/-- C4 amended: `check_installs` resolves each install's `path` field through
the settings database and checks directory existence, returning `false`
(never raising) when any install directory is missing — but it stops and
reports at the FIRST missing install (at most one message is logged) rather
than checking each independently; the caller `extract_technology_files`
ignores the result, so archive extraction still proceeds. -/
theorem c4_amended (env : TechEnv) (cfg : TechJSON) (installs : List PathPfx)
    (hi : cfg.installs = some installs) (hne : installs ≠ []) :
    ((check_installs env cfg).1 = true ↔
        ∀ i ∈ installs, env.path_exists (strOfSetting (env.settings i.path)) = true)
    ∧ (check_installs env cfg).2.length ≤ 1
    ∧ (∀ (ts : List Tarball) (acts : List TarballAction),
        cfg.tarballs = some ts → extract_tarballs env cfg = Except.ok acts →
          extract_technology_files env cfg = Except.ok (check_installs env cfg, acts)) := by
  have hc : check_installs env cfg = check_installs_go env installs := by
    unfold check_installs
    rw [hi]
    dsimp only
    rw [if_neg (by simpa [List.isEmpty_iff] using hne)]
  refine ⟨?_, ?_, ?_⟩
  · rw [hc]; exact check_installs_go_fst env installs
  · rw [hc]; exact check_installs_go_len env installs
  · intro ts acts ht hex
    unfold extract_technology_files
    rw [hi, ht]
    dsimp only
    rw [hex]

/-- C4 witness: the amended statement applied first at `env0` (where every
path exists — `check_installs` returns `true`), then at `envC4` (both
installs missing — at most one message logged). -/
theorem c4_witness :
    (check_installs env0 cfgC4).1 = true
    ∧ (check_installs envC4 cfgC4).2.length ≤ 1 := by
  constructor
  · exact (c4_amended env0 cfgC4
      [{ id := "ia", path := "keyA" }, { id := "ib", path := "keyB" }] rfl (by decide)).1.mpr
      (fun i _ => rfl)
  · exact (c4_amended envC4 cfgC4
      [{ id := "ia", path := "keyA" }, { id := "ib", path := "keyB" }] rfl (by decide)).2.1

/-! ## C5 / C6: path prefix resolution -/

theorem prepend_dir_path_reduce (env : TechEnv) (cfg : TechJSON) (path : String)
    (lib : Option Library) (id : String) (rest : List String)
    (hsplit : splitPath path = id :: rest) (hrest : rest ≠ [])
    (habs : strIsAbs path = false) :
    prepend_dir_path env cfg path lib =
      (if id = "cache" then Except.ok (joinParts (env.cache_dir :: rest))
       else
        match candidates env cfg id lib with
        | Except.error e => Except.error e
        | Except.ok cands => pickCandidate path id rest cands) := by
  have hne : path ≠ "" := by
    intro he
    rw [he] at hsplit
    have h0 : splitPath "" = [""] := rfl
    rw [h0] at hsplit
    injection hsplit with h1 h2
    exact hrest h2.symm
  have hlen : ¬ (splitPath path).length = 1 := by
    rw [hsplit]
    simp only [List.length_cons]
    intro h
    exact hrest (List.length_eq_zero.mp (by omega))
  have hhead : (splitPath path).headD "" = id := by rw [hsplit]; rfl
  have htail : (splitPath path).tail = rest := by rw [hsplit]; rfl
  unfold prepend_dir_path
  rw [if_neg hne, habs, hhead, htail]
  simp only [Bool.false_eq_true, if_false, if_neg hlen]

/-- C5: for a non-absolute, separator-containing path whose leading segment is
not `cache`, resolution raises when the segment matches zero candidates among
installs, tarball roots and the owning library's extra prefixes, raises when
it matches two or more, and on exactly one match returns that candidate's
path joined with the remainder. -/
theorem c5_prefix_resolution (env : TechEnv) (cfg : TechJSON) (path : String)
    (lib : Option Library) (id : String) (rest : List String)
    (hsplit : splitPath path = id :: rest) (hrest : rest ≠ [])
    (habs : strIsAbs path = false) (hid : id ≠ "cache")
    (cands : List PathPfx)
    (hc : candidates env cfg id lib = Except.ok cands) :
    (cands = [] → isErr (prepend_dir_path env cfg path lib) = true)
    ∧ (2 ≤ cands.length → isErr (prepend_dir_path env cfg path lib) = true)
    ∧ (∀ p : PathPfx, cands = [p] →
        prepend_dir_path env cfg path lib = Except.ok (p.prepend (joinParts rest))) := by
  have key : prepend_dir_path env cfg path lib = pickCandidate path id rest cands := by
    rw [prepend_dir_path_reduce env cfg path lib id rest hsplit hrest habs,
      if_neg hid, hc]
  refine ⟨?_, ?_, ?_⟩
  · intro h0
    subst h0
    rw [key]
    rfl
  · intro h2
    rw [key]
    unfold pickCandidate
    rw [if_neg (by omega), if_pos (by omega)]
    rfl
  · intro p hp
    subst hp
    rw [key]
    rfl

/-- C5 witness: the three branches evaluated concretely — a unique install
match resolves `pdkroot/dac/dac.lib` through the settings-key indirection to
`/nfs/pdk/dac/dac.lib`; an unmatched prefix id raises; a prefix id shared by
an install and a tarball raises. -/
theorem c5_witness :
    prepend_dir_path envC5 cfgC5 "pdkroot/dac/dac.lib" Option.none
        = Except.ok "/nfs/pdk/dac/dac.lib"
    ∧ isErr (prepend_dir_path envC5 cfgC5 "nomatch/x.lib" Option.none) = true
    ∧ isErr (prepend_dir_path envC5 cfgC5multi "pdkroot/x.lib" Option.none) = true := by
  refine ⟨?_, ?_, ?_⟩
  · exact (c5_prefix_resolution envC5 cfgC5 "pdkroot/dac/dac.lib" Option.none "pdkroot"
      ["dac", "dac.lib"] rfl (by decide) rfl (by decide)
      [{ id := "pdkroot", path := "/nfs/pdk" }] rfl).2.2
      { id := "pdkroot", path := "/nfs/pdk" } rfl
  · exact (c5_prefix_resolution envC5 cfgC5 "nomatch/x.lib" Option.none "nomatch"
      ["x.lib"] rfl (by decide) rfl (by decide) [] rfl).1 rfl
  · exact (c5_prefix_resolution envC5 cfgC5multi "pdkroot/x.lib" Option.none "pdkroot"
      ["x.lib"] rfl (by decide) rfl (by decide)
      [{ id := "pdkroot", path := "/nfs/pdk" },
       { id := "pdkroot", path := "/cache/extracted/pdkroot" }] rfl).2.1 (by decide)

/-- C6: a non-absolute path whose first segment is `cache` always resolves to
the cache directory joined with the remainder, whatever installs, tarballs or
library extra prefixes are declared. -/
theorem c6_cache_rule (env : TechEnv) (cfg : TechJSON) (path : String)
    (lib : Option Library) (rest : List String)
    (hsplit : splitPath path = "cache" :: rest) (hrest : rest ≠ [])
    (habs : strIsAbs path = false) :
    prepend_dir_path env cfg path lib = Except.ok (joinParts (env.cache_dir :: rest)) := by
  rw [prepend_dir_path_reduce env cfg path lib "cache" rest hsplit hrest habs, if_pos rfl]

/-- C6 witness: `cache/x/y` resolves to `/cache/x/y` against a descriptor that
declares installs (which are ignored by the cache rule). -/
theorem c6_witness :
    prepend_dir_path env0 cfgC5 "cache/x/y" Option.none = Except.ok "/cache/x/y" :=
  c6_cache_rule env0 cfgC5 "cache/x/y" Option.none ["x", "y"] rfl (by decide) rfl

/-! ## C7: CCS-preferring timing filters -/

theorem foldl_append_all_nil : ∀ (L : List (List String)) (acc : List String),
    (∀ x ∈ L, x = []) → L.foldl (fun a b => a ++ b) acc = acc := by
  intro L
  induction L with
  | nil => intro acc _; rfl
  | cons x xs ih =>
    intro acc h
    have hx := h x (List.mem_cons_self x xs)
    subst hx
    simp only [List.foldl_cons, List.append_nil]
    exact ih acc (fun y hy => h y (List.mem_cons_of_mem _ hy))

theorem process_library_filter_no_paths (env : TechEnv) (cfg : TechJSON)
    (filt : LibraryFilter) (pre_filts : List (Library → Bool))
    (output_func : String → LibraryFilter → List String)
    (must_exist uniquify : Bool)
    (hsort : filt.sort_func = Option.none)
    (hext : filt.extraction_func = Option.none)
    (hpost : filt.extra_post_filter_funcs = [])
    (hpaths : ∀ lib ∈ get_available_libraries env cfg, filt.paths_func lib = []) :
    process_library_filter env cfg filt pre_filts output_func must_exist uniquify
      = Except.ok [] := by
  unfold process_library_filter
  simp only [hsort, hext, hpost]
  have hall : ∀ lib ∈ (List.foldl (fun ls f => List.filter f ls)
      (get_available_libraries env cfg)
      (pre_filts ++ match filt.filter_func with | some f => [f] | Option.none => [])),
      filt.paths_func lib = [] :=
    fun lib hm => hpaths lib (mem_foldl_filter _ _ lib hm)
  generalize hL : (List.foldl (fun ls f => List.filter f ls)
      (get_available_libraries env cfg)
      (pre_filts ++ match filt.filter_func with | some f => [f] | Option.none => [])) = L at hall ⊢
  have hprep : prependAll env cfg filt L
      = Except.ok (L.map (fun l => (l, ([] : List String)))) := by
    unfold prependAll
    apply mapME_ok_of_all
    intro lib hm
    rw [hall lib hm]
    rfl
  rw [hprep]
  dsimp only
  have hchk : (if must_exist = true
        then mapME (checkLibAndPaths env filt) (L.map (fun l => (l, ([] : List String))))
        else Except.ok (L.map (fun l => (l, ([] : List String)))))
      = Except.ok (L.map (fun l => (l, ([] : List String)))) := by
    cases must_exist
    · rfl
    · simp only [if_pos]
      have := mapME_ok_of_all (checkLibAndPaths env filt) id
        (L.map (fun l => (l, ([] : List String))))
        (by
          intro t hm
          obtain ⟨l, _, rfl⟩ := List.mem_map.mp hm
          rfl)
      rw [this, List.map_id]
  rw [hchk]
  dsimp only
  have hfold : ((L.map (fun l => (l, ([] : List String)))).map (fun t => t.2)).foldl
      (fun a b => a ++ b) [] = [] := by
    apply foldl_append_all_nil
    intro x hx
    obtain ⟨t, ht, rfl⟩ := List.mem_map.mp hx
    obtain ⟨l, _, rfl⟩ := List.mem_map.mp ht
    rfl
  rw [hfold]
  have hipu : in_place_unique [] = [] := rfl
  rw [hipu, ite_self]
  rfl

/-- C7: the CCS-preferring timing filters pick exactly the CCS path when one
is declared, exactly the NLDM path when only NLDM is declared, and nothing
when neither is declared — and a descriptor whose libraries all declare
neither timing view flows through the whole pipeline producing the empty
output without raising. -/
theorem c7_timing_preference :
    (∀ (lib : Library) (c : String), lib.ccs_library_file = some c →
        timing_db_filter.paths_func lib = [c])
    ∧ (∀ (lib : Library) (n : String), lib.ccs_library_file = Option.none →
        lib.nldm_library_file = some n → timing_db_filter.paths_func lib = [n])
    ∧ (∀ lib : Library, lib.ccs_library_file = Option.none →
        lib.nldm_library_file = Option.none → timing_db_filter.paths_func lib = [])
    ∧ (∀ (lib : Library) (c : String), lib.ccs_liberty_file = some c →
        timing_lib_filter.paths_func lib = [c])
    ∧ (∀ (lib : Library) (n : String), lib.ccs_liberty_file = Option.none →
        lib.nldm_liberty_file = some n → timing_lib_filter.paths_func lib = [n])
    ∧ (∀ lib : Library, lib.ccs_liberty_file = Option.none →
        lib.nldm_liberty_file = Option.none → timing_lib_filter.paths_func lib = [])
    ∧ (∀ (env : TechEnv) (cfg : TechJSON) (pre_filts : List (Library → Bool))
        (output_func : String → LibraryFilter → List String) (must_exist uniquify : Bool),
        (∀ lib ∈ get_available_libraries env cfg,
            lib.ccs_library_file = Option.none ∧ lib.nldm_library_file = Option.none) →
          process_library_filter env cfg timing_db_filter pre_filts output_func
            must_exist uniquify = Except.ok [])
    ∧ (∀ (env : TechEnv) (cfg : TechJSON) (pre_filts : List (Library → Bool))
        (output_func : String → LibraryFilter → List String) (must_exist uniquify : Bool),
        (∀ lib ∈ get_available_libraries env cfg,
            lib.ccs_liberty_file = Option.none ∧ lib.nldm_liberty_file = Option.none) →
          process_library_filter env cfg timing_lib_filter pre_filts output_func
            must_exist uniquify = Except.ok []) := by
  refine ⟨?_, ?_, ?_, ?_, ?_, ?_, ?_, ?_⟩
  · intro lib c hc
    simp [timing_db_filter, timing_db_paths, hc]
  · intro lib n hc hn
    simp [timing_db_filter, timing_db_paths, hc, hn]
  · intro lib hc hn
    simp [timing_db_filter, timing_db_paths, hc, hn]
  · intro lib c hc
    simp [timing_lib_filter, timing_lib_paths, hc]
  · intro lib n hc hn
    simp [timing_lib_filter, timing_lib_paths, hc, hn]
  · intro lib hc hn
    simp [timing_lib_filter, timing_lib_paths, hc, hn]
  · intro env cfg pre_filts output_func must_exist uniquify h
    apply process_library_filter_no_paths env cfg timing_db_filter pre_filts output_func
      must_exist uniquify rfl rfl rfl
    intro lib hm
    have := h lib hm
    simp [timing_db_filter, timing_db_paths, this.1, this.2]
  · intro env cfg pre_filts output_func must_exist uniquify h
    apply process_library_filter_no_paths env cfg timing_lib_filter pre_filts output_func
      must_exist uniquify rfl rfl rfl
    intro lib hm
    have := h lib hm
    simp [timing_lib_filter, timing_lib_paths, this.1, this.2]

/-- C7 witness: the preference evaluated at the three concrete libraries, and
the full pipeline over a descriptor whose single library declares no timing
view, which yields the empty output without raising. -/
theorem c7_witness :
    timing_db_filter.paths_func libC7both = ["/lib/tt.ccs.db"]
    ∧ timing_db_filter.paths_func libC7nldm = ["/lib/tt.nldm.db"]
    ∧ timing_db_filter.paths_func libC7none = []
    ∧ timing_lib_filter.paths_func libC7both = ["/lib/tt.ccs.lib"]
    ∧ timing_lib_filter.paths_func libC7nldm = ["/lib/tt.nldm.lib"]
    ∧ timing_lib_filter.paths_func libC7none = []
    ∧ process_library_filter env0 cfgC7 timing_db_filter [] to_plain_item true true
        = Except.ok []
    ∧ process_library_filter env0 cfgC7 timing_lib_filter [] to_plain_item true true
        = Except.ok [] := by
  refine ⟨c7_timing_preference.1 libC7both _ rfl,
    c7_timing_preference.2.1 libC7nldm _ rfl rfl,
    c7_timing_preference.2.2.1 libC7none rfl rfl,
    c7_timing_preference.2.2.2.1 libC7both _ rfl,
    c7_timing_preference.2.2.2.2.1 libC7nldm _ rfl rfl,
    c7_timing_preference.2.2.2.2.2.1 libC7none rfl rfl,
    c7_timing_preference.2.2.2.2.2.2.1 env0 cfgC7 [] to_plain_item true true (by decide),
    c7_timing_preference.2.2.2.2.2.2.2 env0 cfgC7 [] to_plain_item true true (by decide)⟩

/-! ## C8: de-duplication -/

theorem mem_ipuAux : ∀ (l seen : List String) (x : String),
    x ∈ ipuAux seen l ↔ (x ∈ l ∧ x ∉ seen) := by
  intro l
  induction l with
  | nil => intro seen x; simp [ipuAux]
  | cons y ys ih =>
    intro seen x
    have hcont : (seen.contains y = true) ↔ y ∈ seen := by simp
    by_cases hY : y ∈ seen
    · simp only [ipuAux, if_pos (hcont.mpr hY), ih, List.mem_cons]
      constructor
      · exact fun hx => ⟨Or.inr hx.1, hx.2⟩
      · rintro ⟨(rfl | hx), hns⟩
        · exact absurd hY hns
        · exact ⟨hx, hns⟩
    · simp only [ipuAux, if_neg (fun hc => hY (hcont.mp hc)), List.mem_cons, ih]
      constructor
      · rintro (rfl | ⟨hx, hns⟩)
        · exact ⟨Or.inl rfl, hY⟩
        · simp only [List.mem_cons, not_or] at hns
          exact ⟨Or.inr hx, hns.2⟩
      · rintro ⟨(rfl | hx), hns⟩
        · exact Or.inl rfl
        · by_cases hxy : x = y
          · exact Or.inl hxy
          · refine Or.inr ⟨hx, ?_⟩
            simp only [List.mem_cons, not_or]
            exact ⟨hxy, hns⟩

theorem sublist_ipuAux : ∀ (l seen : List String), (ipuAux seen l).Sublist l := by
  intro l
  induction l with
  | nil => intro seen; simp [ipuAux]
  | cons y ys ih =>
    intro seen
    by_cases hc : seen.contains y = true
    · simp only [ipuAux, if_pos hc]
      exact (ih seen).cons y
    · simp only [ipuAux, if_neg hc]
      exact (ih (y :: seen)).cons₂ y

theorem nodup_ipuAux : ∀ (l seen : List String), (ipuAux seen l).Nodup := by
  intro l
  induction l with
  | nil => intro seen; simp [ipuAux]
  | cons y ys ih =>
    intro seen
    by_cases hc : seen.contains y = true
    · simp only [ipuAux, if_pos hc]
      exact ih seen
    · simp only [ipuAux, if_neg hc]
      refine List.nodup_cons.mpr ⟨?_, ih (y :: seen)⟩
      intro hmem
      rw [mem_ipuAux] at hmem
      exact hmem.2 (List.mem_cons_self y seen)

/-- C8: the de-duplication step removes only later duplicates — the result is
a duplicate-free sublist of the input with the same members (so
first-occurrence order is preserved); in particular `[a, b, a, c]` becomes
`[a, b, c]`, and the full `process_library_filter` pipeline over four
libraries whose extracted paths are `[/a, /b, /a, /c]` (no sort function,
uniquify on) outputs `[/a, /b, /c]`. -/
theorem c8_dedup :
    (∀ l : List String, (in_place_unique l).Sublist l ∧ (in_place_unique l).Nodup
        ∧ ∀ x, x ∈ in_place_unique l ↔ x ∈ l)
    ∧ (∀ a b c : String, a ≠ b → a ≠ c → b ≠ c →
        in_place_unique [a, b, a, c] = [a, b, c])
    ∧ process_library_filter env0 cfgC8 spice_filter [] to_plain_item true true
        = Except.ok ["/a", "/b", "/c"] := by
  refine ⟨?_, ?_, ?_⟩
  · intro l
    refine ⟨sublist_ipuAux l [], nodup_ipuAux l [], ?_⟩
    intro x
    rw [in_place_unique, mem_ipuAux]
    simp
  · intro a b c hab hac hbc
    have h1 : (b == a) = false := beq_eq_false_iff_ne.mpr (Ne.symm hab)
    have h2 : (a == b) = false := beq_eq_false_iff_ne.mpr hab
    have h3 : (a == a) = true := beq_self_eq_true a
    have h4 : (c == b) = false := beq_eq_false_iff_ne.mpr (Ne.symm hbc)
    have h5 : (c == a) = false := beq_eq_false_iff_ne.mpr (Ne.symm hac)
    simp [in_place_unique, ipuAux, List.contains, List.elem, h1, h2, h3, h4, h5]
  · rfl

/-- C8 witness: the parametric `[a, b, a, c] ↦ [a, b, c]` fact evaluated at
the concrete strings `a`, `b`, `c`. -/
theorem c8_witness : in_place_unique ["a", "b", "a", "c"] = ["a", "b", "c"] :=
  c8_dedup.2.1 "a" "b" "c" (by decide) (by decide) (by decide)

/-! ## C9: deck lookup for a tool with no matching decks -/

theorem resolveLVSDecks_abs (env : TechEnv) (cfg : TechJSON) (decks : List LVSDeck)
    (h : ∀ d ∈ decks, strIsAbs d.path = true) :
    resolveLVSDecks env cfg decks = Except.ok decks := by
  unfold resolveLVSDecks
  have hm := mapME_ok_of_all
    (fun d : LVSDeck =>
      match prepend_dir_path env cfg d.path Option.none with
      | Except.error e => Except.error e
      | Except.ok p => Except.ok { d with path := p })
    id decks
    (fun d hd => by
      show (match prepend_dir_path env cfg d.path Option.none with
            | Except.error e => Except.error e
            | Except.ok p => Except.ok { d with path := p }) = Except.ok (id d)
      rw [prepend_dir_path_abs env cfg Option.none (h d hd)]
      rfl)
  rw [hm, List.map_id]

theorem resolveDRCDecks_abs (env : TechEnv) (cfg : TechJSON) (decks : List DRCDeck)
    (h : ∀ d ∈ decks, strIsAbs d.path = true) :
    resolveDRCDecks env cfg decks = Except.ok decks := by
  unfold resolveDRCDecks
  have hm := mapME_ok_of_all
    (fun d : DRCDeck =>
      match prepend_dir_path env cfg d.path Option.none with
      | Except.error e => Except.error e
      | Except.ok p => Except.ok { d with path := p })
    id decks
    (fun d hd => by
      show (match prepend_dir_path env cfg d.path Option.none with
            | Except.error e => Except.error e
            | Except.ok p => Except.ok { d with path := p }) = Except.ok (id d)
      rw [prepend_dir_path_abs env cfg Option.none (h d hd)]
      rfl)
  rw [hm, List.map_id]

/-- C9: the deck accessors raise when the decks list is absent from the
descriptor; when a decks list is declared (and its paths resolve — here, are
absolute) they never raise, and in particular a tool name matching none of
the declared decks yields the empty list rather than an error. -/
theorem c9_decks :
    (∀ (env : TechEnv) (cfg : TechJSON) (tool : String), cfg.lvs_decks = Option.none →
        isErr (get_lvs_decks_for_tool env cfg tool) = true)
    ∧ (∀ (env : TechEnv) (cfg : TechJSON) (tool : String) (decks : List LVSDeck),
        cfg.lvs_decks = some decks → (∀ d ∈ decks, strIsAbs d.path = true) →
          isErr (get_lvs_decks_for_tool env cfg tool) = false)
    ∧ (∀ (env : TechEnv) (cfg : TechJSON) (tool : String) (decks : List LVSDeck),
        cfg.lvs_decks = some decks → decks ≠ [] →
        (∀ d ∈ decks, strIsAbs d.path = true) →
        (∀ d ∈ decks, d.tool_name ≠ tool) →
          get_lvs_decks_for_tool env cfg tool
            = Except.ok ({ cfg with lvs_decks := some decks }, []))
    ∧ (∀ (env : TechEnv) (cfg : TechJSON) (tool : String), cfg.drc_decks = Option.none →
        isErr (get_drc_decks_for_tool env cfg tool) = true)
    ∧ (∀ (env : TechEnv) (cfg : TechJSON) (tool : String) (decks : List DRCDeck),
        cfg.drc_decks = some decks → (∀ d ∈ decks, strIsAbs d.path = true) →
          isErr (get_drc_decks_for_tool env cfg tool) = false)
    ∧ (∀ (env : TechEnv) (cfg : TechJSON) (tool : String) (decks : List DRCDeck),
        cfg.drc_decks = some decks → decks ≠ [] →
        (∀ d ∈ decks, strIsAbs d.path = true) →
        (∀ d ∈ decks, d.tool_name ≠ tool) →
          get_drc_decks_for_tool env cfg tool
            = Except.ok ({ cfg with drc_decks := some decks }, [])) := by
  refine ⟨?_, ?_, ?_, ?_, ?_, ?_⟩
  · intro env cfg tool h
    unfold get_lvs_decks_for_tool
    rw [h]
    rfl
  · intro env cfg tool decks hd habs
    unfold get_lvs_decks_for_tool
    rw [hd]
    dsimp only
    rw [resolveLVSDecks_abs env cfg decks habs]
    rfl
  · intro env cfg tool decks hd _ habs htool
    unfold get_lvs_decks_for_tool
    rw [hd]
    dsimp only
    rw [resolveLVSDecks_abs env cfg decks habs]
    dsimp only
    have hf : decks.filter (fun x => x.tool_name == tool) = [] := by
      rw [List.filter_eq_nil_iff]
      intro d hdm
      simp [htool d hdm]
    rw [hf]
  · intro env cfg tool h
    unfold get_drc_decks_for_tool
    rw [h]
    rfl
  · intro env cfg tool decks hd habs
    unfold get_drc_decks_for_tool
    rw [hd]
    dsimp only
    rw [resolveDRCDecks_abs env cfg decks habs]
    rfl
  · intro env cfg tool decks hd _ habs htool
    unfold get_drc_decks_for_tool
    rw [hd]
    dsimp only
    rw [resolveDRCDecks_abs env cfg decks habs]
    dsimp only
    have hf : decks.filter (fun x => x.tool_name == tool) = [] := by
      rw [List.filter_eq_nil_iff]
      intro d hdm
      simp [htool d hdm]
    rw [hf]

/-- C9 witness: requesting decks for `toolA` against `cfgC9` (whose non-empty
deck lists are all for `toolB`) returns the empty sequence for both LVS and
DRC, while `cfgC9none` (no deck lists at all) makes both accessors raise. -/
theorem c9_witness :
    get_lvs_decks_for_tool env0 cfgC9 "toolA"
        = Except.ok ({ cfgC9 with
            lvs_decks := some [{ tool_name := "toolB", deck_name := "deck1",
                                 path := "/decks/lvs.rules" }] }, [])
    ∧ get_drc_decks_for_tool env0 cfgC9 "toolA"
        = Except.ok ({ cfgC9 with
            drc_decks := some [{ tool_name := "toolB", deck_name := "deck2",
                                 path := "/decks/drc.rules" }] }, [])
    ∧ isErr (get_lvs_decks_for_tool env0 cfgC9none "toolA") = true
    ∧ isErr (get_drc_decks_for_tool env0 cfgC9none "toolA") = true := by
  refine ⟨?_, ?_, ?_, ?_⟩
  · exact c9_decks.2.2.1 env0 cfgC9 "toolA"
      [{ tool_name := "toolB", deck_name := "deck1", path := "/decks/lvs.rules" }]
      rfl (by decide) (by decide) (by decide)
  · exact c9_decks.2.2.2.2.2 env0 cfgC9 "toolA"
      [{ tool_name := "toolB", deck_name := "deck2", path := "/decks/drc.rules" }]
      rfl (by decide) (by decide) (by decide)
  · exact c9_decks.1 env0 cfgC9none "toolA" rfl
  · exact c9_decks.2.2.2.1 env0 cfgC9none "toolA" rfl

/-! ## C10: storing an extra library's prefix -/

/-- C10: `store_into_library` returns a copy of the contained library whose
`extra_prefixes` is exactly the declared prefix (a one-element list when a
prefix is declared, the empty list otherwise); every other field equals the
original's, and the result is independent of whatever `extra_prefixes` the
original library carried (they are discarded, not merged). The original
`ExtraLibrary` value is untouched — the embedding is a pure function of it. -/
theorem c10_store_into_library (el : ExtraLibrary) :
    (el.store_into_library.extra_prefixes
        = some (match el.pfx with | some p => [p] | Option.none => []))
    ∧ el.store_into_library.name = el.library.name
    ∧ el.store_into_library.ccs_liberty_file = el.library.ccs_liberty_file
    ∧ el.store_into_library.ccs_library_file = el.library.ccs_library_file
    ∧ el.store_into_library.ecsm_liberty_file = el.library.ecsm_liberty_file
    ∧ el.store_into_library.ecsm_library_file = el.library.ecsm_library_file
    ∧ el.store_into_library.corner = el.library.corner
    ∧ el.store_into_library.itf_files = el.library.itf_files
    ∧ el.store_into_library.lef_file = el.library.lef_file
    ∧ el.store_into_library.klayout_techfile = el.library.klayout_techfile
    ∧ el.store_into_library.spice_file = el.library.spice_file
    ∧ el.store_into_library.gds_file = el.library.gds_file
    ∧ el.store_into_library.milkyway_lib_in_dir = el.library.milkyway_lib_in_dir
    ∧ el.store_into_library.milkyway_techfile = el.library.milkyway_techfile
    ∧ el.store_into_library.nldm_liberty_file = el.library.nldm_liberty_file
    ∧ el.store_into_library.nldm_library_file = el.library.nldm_library_file
    ∧ el.store_into_library.openaccess_techfile = el.library.openaccess_techfile
    ∧ el.store_into_library.provides = el.library.provides
    ∧ el.store_into_library.qrc_techfile = el.library.qrc_techfile
    ∧ el.store_into_library.supplies = el.library.supplies
    ∧ el.store_into_library.tluplus_files = el.library.tluplus_files
    ∧ el.store_into_library.tluplus_map_file = el.library.tluplus_map_file
    ∧ el.store_into_library.verilog_sim = el.library.verilog_sim
    ∧ el.store_into_library.verilog_synth = el.library.verilog_synth
    ∧ el.store_into_library.spice_model_file = el.library.spice_model_file
    ∧ el.store_into_library.power_grid_library = el.library.power_grid_library
    ∧ (∀ eps : Option (List PathPfx),
        ExtraLibrary.store_into_library
            { pfx := el.pfx, library := { el.library with extra_prefixes := eps } }
          = el.store_into_library) := by
  refine ⟨rfl, rfl, rfl, rfl, rfl, rfl, rfl, rfl, rfl, rfl, rfl, rfl, rfl, rfl,
    rfl, rfl, rfl, rfl, rfl, rfl, rfl, rfl, rfl, rfl, rfl, rfl, fun eps => rfl⟩

/-- C10 witness: evaluated at `elC10`, whose library already carried an
unrelated extra prefix: the declared prefix replaces it outright. -/
theorem c10_witness :
    elC10.store_into_library.extra_prefixes
        = some [{ id := "lib1", path := "/design_files/caps/" }]
    ∧ elC10.store_into_library.name = some "lib1"
    ∧ ExtraLibrary.store_into_library
        { pfx := elC10.pfx, library := { elC10.library with extra_prefixes := Option.none } }
      = elC10.store_into_library := by
  have h := c10_store_into_library elC10
  exact ⟨h.1, h.2.1, h.2.2.2.2.2.2.2.2.2.2.2.2.2.2.2.2.2.2.2.2.2.2.2.2.2.2 Option.none⟩
